import Mathlib

/-!
Shallow embedding of the `duo` declarative DynamoDB mapping layer
(`duo.py`): dynamic Python-ish values, the enumerated-type metaclass,
the cache-key derivation (SHA-224 of an underscore-joined string), the
Table handle's cache-aware read/create operations, the Item put/delete
write-through discipline, and the descriptor-based Field protocol with
its built-in coercion variants.

Machine words are modelled as `Nat` reduced mod 2^32 where overflow
matters; fallible Python code is modelled with `Except`; the Cache and
Store collaborators are opaque function parameters; the side effects a
mutation performs on the cache are recorded as an explicit trace.
-/

/-- Exception classes that the embedded code can raise.  `exc` stands for
an arbitrary exception raised by an external collaborator. -/
inductive PyError where
  | keyError
  | indexError
  | typeError
  | valueError
  | attributeError
  | itemNotFound
  | exc (msg : String)
deriving DecidableEq, Repr

/-- Dynamic values flowing through the mapper: the store's wire types
(string, number) and the application-level typed values the Fields
coerce them into.  A `datetime.date` is represented by its proleptic
Gregorian ordinal (`toordinal`); a `datetime.datetime` by its unix
timestamp in whole seconds plus a microsecond component (assuming
TZ=UTC for the `mktime`/`fromtimestamp` pair); an enumeration member
by its declared name and ordinal. -/
inductive PyVal where
  | none
  | int (n : Int)
  | str (s : String)
  | date (ordinal : Int)
  | datetime (ts : Int) (micro : Nat)
  | member (name : String) (index : Nat)
deriving DecidableEq, Repr

/-- Python `str()` / `unicode()` of a value, as used by the `%s` format
specifier in `_get_cache_key` and by `UnicodeField.from_python`.  An
enumeration member renders as its name (`EnumMeta.__str__` returns
`cls.key`).  The exact rendering of date/datetime objects is immaterial
to the embedded operations (no claim formats one); a stable rendering
is used. -/
def pyStr : PyVal → String
  | .none => "None"
  | .int n => toString n
  | .str s => s
  | .date ordinal => "date-ordinal-" ++ toString ordinal
  | .datetime ts micro => "datetime-" ++ toString ts ++ "-" ++ toString micro
  | .member name _ => name

/-- Python truthiness.  Note that an enumeration member is falsy exactly
when its ordinal is 0: `EnumMeta.__nonzero__` is `bool(int(cls))`. -/
def pyTruthy : PyVal → Bool
  | .none => false
  | .int n => n != 0
  | .str s => s != ""
  | .date _ => true
  | .datetime _ _ => true
  | .member _ index => index != 0

/-- Python `int()` coercion as used by `IntegerField.from_python` and
`EnumField.from_python`: identity on integers, the declared ordinal for
an enumeration member (`EnumMeta.__int__` returns `cls.index`), digit
parsing for strings, `TypeError` otherwise. -/
def pyInt : PyVal → Except PyError Int
  | .int n => .ok n
  | .member _ index => .ok (Int.ofNat index)
  | .str s =>
    match s.toInt? with
    | some n => .ok n
    | Option.none => .error .valueError
  | _ => .error .typeError

/-- Raw attribute map of an Item: a flat mapping from attribute name to
wire value (boto `Item._data`). -/
abbrev AttrMap := List (String × PyVal)

/-- Dictionary lookup `d[k]` as an `Option`. -/
def lookupAttr (l : AttrMap) (k : String) : Option PyVal :=
  match l.find? (fun p => p.1 = k) with
  | some p => some p.2
  | Option.none => Option.none

/-- Dictionary store `d[k] = v`: replace in place when the key exists,
append otherwise. -/
def insertAttr (l : AttrMap) (k : String) (v : PyVal) : AttrMap :=
  if (l.find? (fun p => p.1 = k)).isSome then
    l.map (fun p => if p.1 = k then (k, v) else p)
  else
    l ++ [(k, v)]

/-- Dictionary delete `del d[k]`. -/
def eraseAttr (l : AttrMap) (k : String) : AttrMap :=
  l.filter (fun p => p.1 ≠ k)

/-! ## SHA-224 (`hashlib.sha224(key).hexdigest()`)

A full executable model of the digest used by `Table._get_cache_key`.
All 32-bit words are `Nat` values reduced mod 2^32. -/

/-- Reduce to a 32-bit word. -/
def w32 (n : Nat) : Nat := n % 4294967296

/-- Right rotation of a 32-bit word. -/
def rotr32 (r x : Nat) : Nat := w32 ((x >>> r) ||| (x <<< (32 - r)))

def bigSigma0 (x : Nat) : Nat := rotr32 2 x ^^^ rotr32 13 x ^^^ rotr32 22 x

def bigSigma1 (x : Nat) : Nat := rotr32 6 x ^^^ rotr32 11 x ^^^ rotr32 25 x

def smallSigma0 (x : Nat) : Nat := rotr32 7 x ^^^ rotr32 18 x ^^^ (x >>> 3)

def smallSigma1 (x : Nat) : Nat := rotr32 17 x ^^^ rotr32 19 x ^^^ (x >>> 10)

def chF (x y z : Nat) : Nat := (x &&& y) ^^^ ((x ^^^ 4294967295) &&& z)

def majF (x y z : Nat) : Nat := (x &&& y) ^^^ (x &&& z) ^^^ (y &&& z)

/-- The 64 SHA-2 round constants (the fractional parts of the cube
roots of the first 64 primes, as 32-bit words, written in decimal). -/
def shaK : List Nat :=
  [1116352408, 1899447441, 3049323471, 3921009573, 961987163,
   1508970993, 2453635748, 2870763221, 3624381080, 310598401,
   607225278, 1426881987, 1925078388, 2162078206, 2614888103,
   3248222580, 3835390401, 4022224774, 264347078, 604807628,
   770255983, 1249150122, 1555081692, 1996064986, 2554220882,
   2821834349, 2952996808, 3210313671, 3336571891, 3584528711,
   113926993, 338241895, 666307205, 773529912, 1294757372,
   1396182291, 1695183700, 1986661051, 2177026350, 2456956037,
   2730485921, 2820302411, 3259730800, 3345764771, 3516065817,
   3600352804, 4094571909, 275423344, 430227734, 506948616,
   659060556, 883997877, 958139571, 1322822218, 1537002063,
   1747873779, 1955562222, 2024104815, 2227730452, 2361852424,
   2428436474, 2756734187, 3204031479, 3329325298]

/-- Working state of the compression function: eight 32-bit words. -/
structure Sha2State where
  a : Nat
  b : Nat
  c : Nat
  d : Nat
  e : Nat
  f : Nat
  g : Nat
  h : Nat
deriving DecidableEq, Repr

/-- The SHA-224 initial hash value (in decimal). -/
def sha224start : Sha2State :=
  ⟨3238371032, 914150663, 812702999, 4144912697,
   4290775857, 1750603025, 1694076839, 3204075428⟩

/-- One compression round; `wk` is the round constant plus the schedule
word, already reduced mod 2^32. -/
def shaRound (st : Sha2State) (wk : Nat) : Sha2State :=
  let t1 := w32 (st.h + bigSigma1 st.e + chF st.e st.f st.g + wk)
  let t2 := w32 (bigSigma0 st.a + majF st.a st.b st.c)
  ⟨w32 (t1 + t2), st.a, st.b, st.c, w32 (st.d + t1), st.e, st.f, st.g⟩

/-- Group a byte stream into big-endian 32-bit words. -/
def toWords : List Nat → List Nat
  | b0 :: b1 :: b2 :: b3 :: rest =>
    (b0 * 16777216 + b1 * 65536 + b2 * 256 + b3) :: toWords rest
  | _ => []

/-- Extend the 16-word block to the 64-word message schedule by running
the recurrence `count` more steps. -/
def msgSchedule : Nat → List Nat → List Nat
  | 0, w => w
  | count + 1, w =>
    let n := w.length
    let x := w32 (smallSigma1 (w.getD (n - 2) 0) + w.getD (n - 7) 0 +
                  smallSigma0 (w.getD (n - 15) 0) + w.getD (n - 16) 0)
    msgSchedule count (w ++ [x])

/-- Process one 64-byte block. -/
def processBlock (st : Sha2State) (block : List Nat) : Sha2State :=
  let ws := msgSchedule 48 (toWords block)
  let t := (List.zipWith (fun wi ki => w32 (wi + ki)) ws shaK).foldl shaRound st
  ⟨w32 (st.a + t.a), w32 (st.b + t.b), w32 (st.c + t.c), w32 (st.d + t.d),
   w32 (st.e + t.e), w32 (st.f + t.f), w32 (st.g + t.g), w32 (st.h + t.h)⟩

/-- The 8-byte big-endian encoding of the message bit length. -/
def lengthBytes (bits : Nat) : List Nat :=
  (List.range 8).map (fun i => (bits >>> (8 * (7 - i))) % 256)

/-- Merkle–Damgård padding: append 0x80, zero bytes to 56 mod 64, then
the 64-bit message bit length. -/
def shaPad (msg : List Nat) : List Nat :=
  msg ++ [0x80] ++ List.replicate ((119 - msg.length % 64) % 64) 0
      ++ lengthBytes (8 * msg.length)

/-- Split a (padded) byte stream into 64-byte chunks. -/
def chunks64 (l : List Nat) : List (List Nat) :=
  if h : l = [] then []
  else
    have : (l.drop 64).length < l.length := by
      have hlen : 0 < l.length := List.length_pos.mpr h
      simp only [List.length_drop]
      omega
    l.take 64 :: chunks64 (l.drop 64)
termination_by l.length

/-- UTF-8 encoding of one character. -/
def utf8Bytes (c : Char) : List Nat :=
  let n := c.toNat
  if n < 0x80 then [n]
  else if n < 0x800 then
    [0xC0 ||| (n >>> 6), 0x80 ||| (n &&& 0x3F)]
  else if n < 0x10000 then
    [0xE0 ||| (n >>> 12), 0x80 ||| ((n >>> 6) &&& 0x3F), 0x80 ||| (n &&& 0x3F)]
  else
    [0xF0 ||| (n >>> 18), 0x80 ||| ((n >>> 12) &&& 0x3F),
     0x80 ||| ((n >>> 6) &&& 0x3F), 0x80 ||| (n &&& 0x3F)]

/-- The byte stream of a string. -/
def strBytes (s : String) : List Nat :=
  (s.data.map utf8Bytes).flatten

/-- The final SHA-224 hash state of a string. -/
def sha224words (s : String) : Sha2State :=
  (chunks64 (shaPad (strBytes s))).foldl processBlock sha224start

/-- Lower-case hex digit. -/
def hexDigit (n : Nat) : Char :=
  if n < 10 then Char.ofNat (48 + n) else Char.ofNat (87 + n)

/-- A 32-bit word as exactly eight lower-case hex characters. -/
def toHex8 (n : Nat) : String :=
  String.mk ((List.range 8).map (fun i => hexDigit ((n >>> (4 * (7 - i))) % 16)))

/-- `hashlib.sha224(s).hexdigest()`: the first seven words of the final
state, in hex. -/
def sha224hex (s : String) : String :=
  let st := sha224words s
  toHex8 st.a ++ toHex8 st.b ++ toHex8 st.c ++ toHex8 st.d ++
  toHex8 st.e ++ toHex8 st.f ++ toHex8 st.g

/-! ## Typed enumeration (`EnumMeta`)

A member of an enumerated type carries the name it was declared under
(`cls.key`) and its ordinal (`cls.index`, the position of declaration).
The registry of declared members, in declaration order, stands for the
mount point's `members` list together with the name attributes that
`setattr(cls.__class__, cls.__name__, cls)` registers. -/

structure EnumMember where
  name : String
  index : Nat
deriving DecidableEq, Repr

structure EnumClass where
  members : List EnumMember
deriving DecidableEq, Repr

/-- Declaring one more member (`EnumMeta.__init__` on a subclass of the
mount point): append to `members` and set `index = len(members) - 1`. -/
def EnumClass.declare (e : EnumClass) (n : String) : EnumClass :=
  { members := e.members ++ [{ name := n, index := e.members.length }] }

/-- An enumerated type whose members were declared, in order, under the
given names. -/
def buildEnum (names : List String) : EnumClass :=
  names.foldl EnumClass.declare { members := [] }

/-- Python list indexing `l[i]`: negative indices count from the end;
out of range raises `IndexError`. -/
def pyListGet (l : List EnumMember) (i : Int) : Except PyError EnumMember :=
  let j : Int := if i < 0 then i + l.length else i
  if j < 0 then .error .indexError
  else
    match l.get? j.toNat with
    | some m => .ok m
    | Option.none => .error .indexError

/-- `getattr(cls, name)` restricted to the registered member names: when
two members share a name the later `setattr` wins. -/
def EnumClass.lookupName (e : EnumClass) (s : String) : Option EnumMember :=
  (e.members.filter (fun m => m.name = s)).getLast?

/-- `EnumMeta.__getitem__`: by another member (via `int(idx)`, the
member's ordinal), by integer ordinal, or by name; any other key raises
`KeyError(idx)`.  A name with no registered member falls through the
inner `except AttributeError: pass` and likewise raises `KeyError`. -/
def EnumClass.getitem (e : EnumClass) (idx : PyVal) : Except PyError EnumMember :=
  match idx with
  | .member _ index => pyListGet e.members (Int.ofNat index)
  | .int n => pyListGet e.members n
  | .str s =>
    match e.lookupName s with
    | some m => .ok m
    | Option.none => .error .keyError
  | _ => .error .keyError

/-- `EnumMeta.__int__` applied to an enumeration class: a declared
member has an `index` attribute and yields it; the mount point has none,
so the `AttributeError` is caught and a `ValueError` is raised. -/
def EnumMeta.intCast : Option EnumMember → Except PyError Int
  | some m => .ok (Int.ofNat m.index)
  | Option.none => .error .valueError

/-! ## Table schema and cache-key derivation -/

/-- The class-level configuration of a `Table` subclass.  `cache_pfx`
models the `cache_prefix` attribute. -/
structure TableSchema where
  table_name : String
  hash_key_name : String
  range_key_name : Option String
  cache_pfx : Option String
deriving DecidableEq, Repr

/-- `cls.cache_prefix or cls.table_name`: the table name when the
prefix is unset or empty. -/
def Table.cacheKeyBase (t : TableSchema) : String :=
  match t.cache_pfx with
  | Option.none => t.table_name
  | some p => if p = "" then t.table_name else p

/-- `Table._get_cache_key`: the SHA-224 hex digest of
`"prefix_hashkey"` or `"prefix_hashkey_rangekey"` (keys rendered with
`%s`). -/
def Table.getCacheKey (t : TableSchema) (hash_key : PyVal) (range_key : Option PyVal) : String :=
  match range_key with
  | Option.none => sha224hex (Table.cacheKeyBase t ++ "_" ++ pyStr hash_key)
  | some rk => sha224hex (Table.cacheKeyBase t ++ "_" ++ pyStr hash_key ++ "_" ++ pyStr rk)

/-- What a cache entry stores: the item's raw attribute pairs
(`self.items()`). -/
abbrev CacheData := AttrMap

/-- The Cache collaborator: get/set/delete by string key.  `set` and
`del` may raise an arbitrary exception. -/
structure CacheClient where
  get : String → Option CacheData
  set : String → CacheData → Int → Except PyError Unit
  del : String → Except PyError Unit

/-- One observable interaction with the cache collaborator. -/
inductive CacheOp where
  | setOp (key : String) (data : CacheData) (ttl : Int)
  | delOp (key : String)
deriving DecidableEq, Repr

/-! ## Records (extended Items) -/

/-- One row instance, after `Table._extend`: the raw attribute map, the
persistence flag and the key-attribute names copied from the table. -/
structure Record where
  attrs : AttrMap
  is_new : Bool
  hash_key_name : String
  range_key_name : Option String
deriving DecidableEq, Repr

/-- `Table._extend`: wrap raw data as a Record bound to this table. -/
def Table.extend (t : TableSchema) (data : AttrMap) (is_new : Bool) : Record :=
  { attrs := data, is_new := is_new,
    hash_key_name := t.hash_key_name, range_key_name := t.range_key_name }

/-- `Table.create`: build a new unsaved Record.  The hash key overwrites
any same-named kwarg; the range key is stored only when the table
declares a truthy range-key name and the supplied range key is truthy
(`if self.range_key_name and range_key:`). -/
def Table.create (t : TableSchema) (hash_key : PyVal) (range_key : Option PyVal)
    (kwargs : AttrMap) : Record :=
  let data := insertAttr kwargs t.hash_key_name hash_key
  let data2 :=
    match t.range_key_name, range_key with
    | some n, some v => if n ≠ "" ∧ pyTruthy v then insertAttr data n v else data
    | _, _ => data
  Table.extend t data2 true

/-- The key-attribute dict built at the top of `Table.get_item`
(same truthiness conditions as in `create`). -/
def Table.keyData (t : TableSchema) (hash_key : PyVal) (range_key : Option PyVal) : AttrMap :=
  let data := insertAttr [] t.hash_key_name hash_key
  match t.range_key_name, range_key with
  | some n, some v => if n ≠ "" ∧ pyTruthy v then insertAttr data n v else data
  | _, _ => data

/-- `Table._get_cache`: `None` when no cache is configured or the key is
absent; otherwise rebuild a loaded (not-new) Record from the cached raw
data. -/
def Table.getCache (t : TableSchema) (cache : Option CacheClient)
    (hash_key : PyVal) (range_key : Option PyVal) : Option Record :=
  match cache with
  | Option.none => Option.none
  | some c =>
    (c.get (Table.getCacheKey t hash_key range_key)).map
      (fun data => Table.extend t data false)

/-- `Item._set_cache`: a no-op unless both a cache and a
`cache_duration` are configured; otherwise one `cache.set` on the key
derived from the item's own key attributes.  `self[hash_key_name]`
raises `KeyError` when the hash attribute is missing.  Returns the
attempted cache operations and the outcome. -/
def Item.setCacheCall (t : TableSchema) (cache_duration : Option Int)
    (cache : Option CacheClient) (r : Record) : List CacheOp × Except PyError Unit :=
  match cache, cache_duration with
  | some c, some d =>
    match lookupAttr r.attrs t.hash_key_name with
    | Option.none => ([], .error .keyError)
    | some hv =>
      let rv := match t.range_key_name with
        | Option.none => Option.none
        | some n => lookupAttr r.attrs n
      let k := Table.getCacheKey t hv rv
      ([.setOp k r.attrs d], c.set k r.attrs d)
  | _, _ => ([], .ok ())

/-- `Item._delete_cache`: a no-op when no cache is configured; otherwise
one `cache.delete` on the derived key. -/
def Item.delCacheCall (t : TableSchema) (cache : Option CacheClient)
    (r : Record) : List CacheOp × Except PyError Unit :=
  match cache with
  | Option.none => ([], .ok ())
  | some c =>
    match lookupAttr r.attrs t.hash_key_name with
    | Option.none => ([], .error .keyError)
    | some hv =>
      let rv := match t.range_key_name with
        | Option.none => Option.none
        | some n => lookupAttr r.attrs n
      let k := Table.getCacheKey t hv rv
      ([.delOp k], c.del k)

/-- The outcome of `Item.put` / `Item.delete`: the returned value, the
record afterwards, the cache operations attempted, and whether a cache
failure was downgraded to a warning. -/
structure MutationResult where
  retval : Bool
  record : Record
  cacheOps : List CacheOp
  warned : Bool
deriving DecidableEq, Repr

/-- `Item.put`: save to the store; a falsy save result returns `False`
at once (no cache interaction, `is_new` untouched).  On success clear
`is_new`, then attempt the cache write-through, downgrading any cache
exception to a warning, and return the store's result. -/
def Item.put (t : TableSchema) (cache_duration : Option Int) (cache : Option CacheClient)
    (r : Record) (saveResult : Bool) : MutationResult :=
  if saveResult = false then ⟨false, r, [], false⟩
  else
    let r2 := { r with is_new := false }
    match Item.setCacheCall t cache_duration cache r2 with
    | (ops, .ok _) => ⟨saveResult, r2, ops, false⟩
    | (ops, .error _) => ⟨saveResult, r2, ops, true⟩

/-- `Item.delete`: delete from the store, set `is_new` (unconditionally,
whatever the store reported), then attempt cache invalidation,
downgrading any cache exception to a warning, and return the store's
result. -/
def Item.delete (t : TableSchema) (cache : Option CacheClient)
    (r : Record) (deleteResult : Bool) : MutationResult :=
  let r2 := { r with is_new := true }
  match Item.delCacheCall t cache r2 with
  | (ops, .ok _) => ⟨deleteResult, r2, ops, false⟩
  | (ops, .error _) => ⟨deleteResult, r2, ops, true⟩

/-! ## Table lookup (`Table.__getitem__` / `Table.get_item`) -/

/-- The Store collaborator's read path: table name and key attributes
to the stored row, or a not-found condition. -/
abbrev StoreGet := String → AttrMap → Option AttrMap

/-- The argument of `Table.__getitem__`: a bare hash key or a
`(hash_key, range_key)` tuple. -/
inductive TableKey where
  | single (k : PyVal)
  | pair (h r : PyVal)
deriving DecidableEq, Repr

/-- What `Table.__getitem__` hands back: a Record, or the lazy result of
`self.query(hash_key)` when no range key was supplied on a table that
declares one. -/
inductive GetResult where
  | item (r : Record)
  | queryReq (hash_key : PyVal)
deriving DecidableEq, Repr

/-- `Table.get_item`: read the row by its encoded key; absence raises
`ItemNotFound`; on a hit, extend the row into a Record and write it
through to the cache (`item._set_cache()`, whose exceptions propagate
here). -/
def Table.get_item (t : TableSchema) (cache_duration : Option Int)
    (cache : Option CacheClient) (store : StoreGet)
    (hash_key : PyVal) (range_key : Option PyVal) :
    Except PyError (Record × List CacheOp) :=
  match store t.table_name (Table.keyData t hash_key range_key) with
  | Option.none => .error .itemNotFound
  | some row =>
    let item := Table.extend t row false
    match Item.setCacheCall t cache_duration cache item with
    | (ops, .ok _) => .ok (item, ops)
    | (_, .error e) => .error e

/-- `Table.__getitem__`: unpack the key, check the cache first, then
read from the store — or fall back to a query when only a hash key was
supplied for a hash+range table.  A store `ItemNotFound` is converted
into a freshly created, unsaved placeholder Record. -/
def Table.getitem (t : TableSchema) (cache_duration : Option Int)
    (cache : Option CacheClient) (store : StoreGet) (key : TableKey) :
    Except PyError (GetResult × List CacheOp) :=
  let hash_key := match key with | .pair a _ => a | .single a => a
  let range_key := match key with | .pair _ b => some b | .single _ => Option.none
  match Table.getCache t cache hash_key range_key with
  | some r => .ok (.item r, [])
  | Option.none =>
    match range_key with
    | Option.none =>
      match t.range_key_name with
      | Option.none =>
        match Table.get_item t cache_duration cache store hash_key Option.none with
        | .ok (it, ops) => .ok (.item it, ops)
        | .error .itemNotFound => .ok (.item (Table.create t hash_key Option.none []), [])
        | .error e => .error e
      | some _ => .ok (.queryReq hash_key, [])
    | some rk =>
      match Table.get_item t cache_duration cache store hash_key (some rk) with
      | .ok (it, ops) => .ok (.item it, ops)
      | .error .itemNotFound => .ok (.item (Table.create t hash_key (some rk) []), [])
      | .error e => .error e

/-! ## The Field descriptor protocol -/

/-- A Field's configured default: the `NONE` sentinel (no default), a
fixed value, or a callable producer invoked with the record.  An
enumeration member used as a default is a fixed value: the source
explicitly refuses to call `EnumMeta` instances. -/
inductive FieldDefault where
  | noDefault
  | val (v : PyVal)
  | fn (f : Record → PyVal)

/-- A Field descriptor: bound attribute name, default, the readonly
flag, and the two polymorphic coercions of the concrete variant. -/
structure FieldSpec where
  name : String
  default : FieldDefault
  readonly : Bool
  toPython : Record → PyVal → Except PyError PyVal
  fromPython : Record → PyVal → Except PyError PyVal

/-- Resolve the configured default (`self.default(obj)` for a callable
non-enum default, the value itself otherwise). -/
def resolveDefault : FieldDefault → Record → Option PyVal
  | .noDefault, _ => Option.none
  | .val v, _ => some v
  | .fn f, obj => some (f obj)

/-- `Field.__set__`: writing a key attribute or a readonly field raises
`AttributeError`; `None` removes the raw attribute (when present);
anything else is coerced through `from_python` and stored. -/
def Field.set (f : FieldSpec) (obj : Record) (value : PyVal) : Except PyError Record :=
  if f.name = obj.hash_key_name then .error .attributeError
  else if obj.range_key_name = some f.name then .error .attributeError
  else if f.readonly then .error .attributeError
  else
    match value with
    | .none =>
      .ok (if (lookupAttr obj.attrs f.name).isSome then
             { obj with attrs := eraseAttr obj.attrs f.name }
           else obj)
    | _ =>
      (f.fromPython obj value).map
        (fun w => { obj with attrs := insertAttr obj.attrs f.name w })

/-- `Field.__delete__`: same key/readonly protection as `__set__`;
removes the raw attribute (`KeyError` when absent). -/
def Field.del (f : FieldSpec) (obj : Record) : Except PyError Record :=
  if f.name = obj.hash_key_name then .error .attributeError
  else if obj.range_key_name = some f.name then .error .attributeError
  else if f.readonly then .error .attributeError
  else if (lookupAttr obj.attrs f.name).isSome then
    .ok { obj with attrs := eraseAttr obj.attrs f.name }
  else .error .keyError

/-- `Field.__get__`: coerce the raw attribute through `to_python`; a
`KeyError` (from the missing attribute, or from `to_python` itself)
falls back to the default, which is resolved, coerced, and — when
truthy — written back through `setattr` (that is, through
`Field.__set__`, whose errors propagate).  With no default configured
the read returns `None`. -/
def Field.get (f : FieldSpec) (obj : Record) : Except PyError (PyVal × Record) :=
  let attempt : Except PyError PyVal :=
    match lookupAttr obj.attrs f.name with
    | Option.none => .error .keyError
    | some raw => f.toPython obj raw
  match attempt with
  | .ok v => .ok (v, obj)
  | .error .keyError =>
    match resolveDefault f.default obj with
    | Option.none => .ok (.none, obj)
    | some v0 =>
      match f.toPython obj v0 with
      | .error e => .error e
      | .ok value =>
        if pyTruthy value then
          match Field.set f obj value with
          | .error e => .error e
          | .ok obj2 => .ok (value, obj2)
        else .ok (value, obj)
  | .error e => .error e

/-! ## Built-in Field variants -/

/-- `UnicodeField.to_python`: identity. -/
def UnicodeField.to_python (_obj : Record) (v : PyVal) : Except PyError PyVal := .ok v

/-- `UnicodeField.from_python`: `unicode(value)`. -/
def UnicodeField.from_python (_obj : Record) (v : PyVal) : Except PyError PyVal :=
  .ok (.str (pyStr v))

/-- `IntegerField.to_python`: identity. -/
def IntegerField.to_python (_obj : Record) (v : PyVal) : Except PyError PyVal := .ok v

/-- `IntegerField.from_python`: `int(value)`. -/
def IntegerField.from_python (_obj : Record) (v : PyVal) : Except PyError PyVal :=
  (pyInt v).map PyVal.int

/-- `_ChoiceMixin.to_python`: `self.enum_type[value]`, handing back the
member itself. -/
def ChoiceMixin.to_python (enum_type : EnumClass) (_obj : Record) (v : PyVal) :
    Except PyError PyVal :=
  (enum_type.getitem v).map (fun m => .member m.name m.index)

/-- `ChoiceField.to_python` (inherited from the mixin). -/
def ChoiceField.to_python (enum_type : EnumClass) (obj : Record) (v : PyVal) :
    Except PyError PyVal :=
  ChoiceMixin.to_python enum_type obj v

/-- `ChoiceField.from_python`: `unicode(self.enum_type[value])` — the
looked-up member rendered as its name. -/
def ChoiceField.from_python (enum_type : EnumClass) (_obj : Record) (v : PyVal) :
    Except PyError PyVal :=
  (enum_type.getitem v).map (fun m => .str m.name)

/-- `EnumField.to_python` (inherited from the mixin). -/
def EnumField.to_python (enum_type : EnumClass) (obj : Record) (v : PyVal) :
    Except PyError PyVal :=
  ChoiceMixin.to_python enum_type obj v

/-- `EnumField.from_python`: `int(self.enum_type[value])` — the
looked-up member rendered as its ordinal. -/
def EnumField.from_python (enum_type : EnumClass) (_obj : Record) (v : PyVal) :
    Except PyError PyVal :=
  (enum_type.getitem v).map (fun m => .int (Int.ofNat m.index))

/-- `DateField.to_python`: `None`/`0` mean "no value"; otherwise
`datetime.date.fromordinal(value)` (ordinals outside `1..9999-12-31`
raise `ValueError`; non-integers raise `TypeError`). -/
def DateField.to_python (_obj : Record) (v : PyVal) : Except PyError PyVal :=
  match v with
  | .none => .ok .none
  | .int n =>
    if n = 0 then .ok .none
    else if 1 ≤ n ∧ n ≤ 3652059 then .ok (.date n)
    else .error .valueError
  | _ => .error .typeError

/-- `DateField.from_python`: `None`/`0` store `0`; a date stores its
ordinal; a datetime also has `toordinal()` (TZ=UTC: unix day plus the
epoch's ordinal 719163); anything without `toordinal` raises the
`ValueError` from the `AttributeError` handler. -/
def DateField.from_python (_obj : Record) (v : PyVal) : Except PyError PyVal :=
  match v with
  | .none => .ok (.int 0)
  | .int n => if n = 0 then .ok (.int 0) else .error .valueError
  | .date ordinal => .ok (.int ordinal)
  | .datetime ts _ => .ok (.int (719163 + ts.fdiv 86400))
  | _ => .error .valueError

/-- `DateTimeField.to_python`: `None`/`0` mean "no value"; otherwise
`datetime.datetime.fromtimestamp(value)` (TZ=UTC; timestamps outside
years 1..9999 raise `ValueError`).  A whole-number wire value yields a
datetime with microsecond 0. -/
def DateTimeField.to_python (_obj : Record) (v : PyVal) : Except PyError PyVal :=
  match v with
  | .none => .ok .none
  | .int n =>
    if n = 0 then .ok .none
    else if -62135596800 ≤ n ∧ n ≤ 253402300799 then .ok (.datetime n 0)
    else .error .valueError
  | _ => .error .typeError

/-- `DateTimeField.from_python`: `None`/`0` store `0`; a datetime stores
`time.mktime(value.timetuple())` (TZ=UTC), which truncates the
microsecond component; a date also has `timetuple()` (midnight);
anything else raises the `ValueError` from the `AttributeError`
handler. -/
def DateTimeField.from_python (_obj : Record) (v : PyVal) : Except PyError PyVal :=
  match v with
  | .none => .ok (.int 0)
  | .int n => if n = 0 then .ok (.int 0) else .error .valueError
  | .datetime ts _ => .ok (.int ts)
  | .date ordinal => .ok (.int ((ordinal - 719163) * 86400))
  | _ => .error .valueError

/-- A `UnicodeField` instance bound to an attribute name. -/
def UnicodeField.mkField (name : String) (default : FieldDefault) (readonly : Bool) :
    FieldSpec :=
  ⟨name, default, readonly, UnicodeField.to_python, UnicodeField.from_python⟩

/-- An `IntegerField` instance bound to an attribute name. -/
def IntegerField.mkField (name : String) (default : FieldDefault) (readonly : Bool) :
    FieldSpec :=
  ⟨name, default, readonly, IntegerField.to_python, IntegerField.from_python⟩

/-- A `ChoiceField` instance bound to an attribute name and enum. -/
def ChoiceField.mkField (enum_type : EnumClass) (name : String) (default : FieldDefault)
    (readonly : Bool) : FieldSpec :=
  ⟨name, default, readonly, ChoiceField.to_python enum_type, ChoiceField.from_python enum_type⟩

/-- An `EnumField` instance bound to an attribute name and enum. -/
def EnumField.mkField (enum_type : EnumClass) (name : String) (default : FieldDefault)
    (readonly : Bool) : FieldSpec :=
  ⟨name, default, readonly, EnumField.to_python enum_type, EnumField.from_python enum_type⟩

/-- A `DateField` instance bound to an attribute name. -/
def DateField.mkField (name : String) (default : FieldDefault) (readonly : Bool) :
    FieldSpec :=
  ⟨name, default, readonly, DateField.to_python, DateField.from_python⟩

/-- A `DateTimeField` instance bound to an attribute name. -/
def DateTimeField.mkField (name : String) (default : FieldDefault) (readonly : Bool) :
    FieldSpec :=
  ⟨name, default, readonly, DateTimeField.to_python, DateTimeField.from_python⟩

/-! ## Concrete fixtures used by witnesses and counterexamples -/

/-- A hash-only table. -/
def sampleTable : TableSchema := ⟨"users", "id", Option.none, Option.none⟩

/-- A hash+range table. -/
def rangedTable : TableSchema := ⟨"events", "id", some "ts", Option.none⟩

/-- A persisted record of `sampleTable` with one data attribute. -/
def sampleRec : Record := ⟨[("id", .str "u1"), ("nick", .str "ann")], false, "id", Option.none⟩

/-- A cache collaborator whose mutating operations always raise. -/
def failingCache : CacheClient :=
  ⟨fun _ => Option.none,
   fun _ _ _ => .error (.exc "memcached down"),
   fun _ => .error (.exc "memcached down")⟩

/-- A store read path on which every key is absent. -/
def emptyStore : StoreGet := fun _ _ => Option.none

/-! ## General lemmas -/

theorem toHex8_length (n : Nat) : (toHex8 n).length = 8 := rfl

theorem sha224hex_length (s : String) : (sha224hex s).length = 56 := by
  simp [sha224hex, String.length_append, toHex8_length]

theorem foldl_declare_members (names : List String) (e : EnumClass) :
    (names.foldl EnumClass.declare e).members =
      e.members ++ (names.enumFrom e.members.length).map
        (fun p => { name := p.2, index := p.1 }) := by
  induction names generalizing e with
  | nil => simp
  | cons n tl ih =>
    simp only [List.foldl_cons, List.enumFrom_cons, List.map_cons]
    rw [ih]
    simp [EnumClass.declare, List.append_assoc]

theorem buildEnum_members (names : List String) :
    (buildEnum names).members =
      names.enum.map (fun p => { name := p.2, index := p.1 }) := by
  simpa [buildEnum, List.enum] using foldl_declare_members names { members := [] }

theorem buildEnum_length (names : List String) :
    (buildEnum names).members.length = names.length := by
  simp [buildEnum_members]

theorem buildEnum_get (names : List String) (i : Nat)
    (h : i < (buildEnum names).members.length) :
    (buildEnum names).members.get ⟨i, h⟩ =
      { name := names.getD i "", index := i } := by
  have hlen : i < names.length := by
    have := buildEnum_length names
    omega
  have hm := buildEnum_members names
  simp only [List.get_eq_getElem]
  rw [List.getElem_of_eq hm]
  simp [List.getElem_enum, List.getD_eq_getElem?_getD, List.getElem?_eq_getElem hlen]

theorem filter_eq_singleton_of_unique {α : Type} (l : List α) (p : α → Bool) (k : Nat)
    (hk : k < l.length)
    (huniq : ∀ j (hj : j < l.length), (p l[j] = true ↔ j = k)) :
    l.filter p = [l[k]] := by
  induction l generalizing k with
  | nil => exact absurd hk (by simp)
  | cons a tl ih =>
    by_cases hpa : p a = true
    · have h0 : (0 : Nat) = k := (huniq 0 (by simp)).mp (by simpa using hpa)
      subst h0
      have htl : tl.filter p = [] := by
        refine List.filter_eq_nil_iff.mpr ?_
        intro x hx
        rcases List.getElem_of_mem hx with ⟨j, hj, rfl⟩
        have := huniq (j + 1) (by simpa using Nat.succ_lt_succ hj)
        simp only [List.getElem_cons_succ] at this
        simp [this]
      simp [List.filter_cons_of_pos hpa, htl]
    · have h0 : ¬((0 : Nat) = k) := by
        intro h
        exact hpa (by simpa using (huniq 0 (by simp)).mpr h)
      obtain ⟨k2, rfl⟩ : ∃ k2, k = k2 + 1 := by
        cases k with
        | zero => exact absurd rfl h0
        | succ k2 => exact ⟨k2, rfl⟩
      have hk2 : k2 < tl.length := by simpa using hk
      have := ih k2 hk2 (fun j hj => by
        have := huniq (j + 1) (by simpa using Nat.succ_lt_succ hj)
        simpa using this)
      simp only [List.filter_cons_of_neg (by simpa using hpa), this,
        List.getElem_cons_succ]

/-! ## Claims -/

/-- Claim C2: when the store rejects the write during `put` (the
underlying save returns a falsy result), `put` returns the boolean
`False` without raising, performs no cache operation, and leaves the
record — in particular its `is_new` flag — unchanged. -/
theorem put_store_rejection_returns_false (t : TableSchema) (cache_duration : Option Int)
    (cache : Option CacheClient) (r : Record) :
    Item.put t cache_duration cache r false = ⟨false, r, [], false⟩ := rfl

/-- Claim C3: when the Cache collaborator raises any error during the
write-through in `put` or the invalidation in `delete`, after the store
mutation already succeeded, the error is downgraded to a warning and
the operation still returns the store's successful result, with the
`is_new` transition kept (no rollback). -/
theorem cache_failure_downgraded_to_warning (t : TableSchema) (cache_duration : Option Int)
    (cache : Option CacheClient) (r : Record) (ops opsD : List CacheOp) (e1 e2 : PyError) :
    (Item.setCacheCall t cache_duration cache { r with is_new := false } = (ops, .error e1) →
      Item.put t cache_duration cache r true = ⟨true, { r with is_new := false }, ops, true⟩) ∧
    (Item.delCacheCall t cache { r with is_new := true } = (opsD, .error e2) →
      Item.delete t cache r true = ⟨true, { r with is_new := true }, opsD, true⟩) := by
  constructor
  · intro hset
    simp [Item.put, hset]
  · intro hdel
    simp [Item.delete, hdel]

/-- Claim C3 witness: with a concrete cache whose mutating operations
raise, a concrete record and a successful store mutation, `put` and
`delete` both warn and return the store result. -/
theorem cache_failure_downgraded_to_warning_witness :
    Item.put sampleTable (some 300) (some failingCache) sampleRec true =
      ⟨true, { sampleRec with is_new := false },
       [.setOp (Table.getCacheKey sampleTable (.str "u1") Option.none) sampleRec.attrs 300],
       true⟩ ∧
    Item.delete sampleTable (some failingCache) sampleRec true =
      ⟨true, { sampleRec with is_new := true },
       [.delOp (Table.getCacheKey sampleTable (.str "u1") Option.none)],
       true⟩ :=
  ⟨(cache_failure_downgraded_to_warning sampleTable (some 300) (some failingCache) sampleRec
      [.setOp (Table.getCacheKey sampleTable (.str "u1") Option.none) sampleRec.attrs 300]
      [.delOp (Table.getCacheKey sampleTable (.str "u1") Option.none)]
      (.exc "memcached down") (.exc "memcached down")).1 rfl,
   (cache_failure_downgraded_to_warning sampleTable (some 300) (some failingCache) sampleRec
      [.setOp (Table.getCacheKey sampleTable (.str "u1") Option.none) sampleRec.attrs 300]
      [.delOp (Table.getCacheKey sampleTable (.str "u1") Option.none)]
      (.exc "memcached down") (.exc "memcached down")).2 rfl⟩

/-- Claim C10: `Item.delete` sets `is_new` to `True` unconditionally:
even when the store delete reports failure the flag is flipped and
cache invalidation is still attempted — the result differs from a
successful delete only in the returned value. -/
theorem delete_flips_is_new_unconditionally (t : TableSchema) (cache : Option CacheClient)
    (r : Record) :
    (Item.delete t cache r false).record.is_new = true ∧
    (Item.delete t cache r false).retval = false ∧
    Item.delete t cache r false = { Item.delete t cache r true with retval := false } := by
  unfold Item.delete
  rcases hm : Item.delCacheCall t cache { r with is_new := true } with ⟨ops, res⟩
  cases res <;> simp [hm]

/-- Claim C5: setting or deleting a Field whose bound name equals the
record's hash-key or range-key attribute name, or whose readonly flag
is set, fails with the access-violation `AttributeError` — for every
Field variant, since the protection lives in the shared descriptor. -/
theorem field_key_or_readonly_write_protected (f : FieldSpec) (obj : Record) (v : PyVal)
    (hviol : f.name = obj.hash_key_name ∨ obj.range_key_name = some f.name ∨
      f.readonly = true) :
    Field.set f obj v = .error .attributeError ∧
    Field.del f obj = .error .attributeError := by
  unfold Field.set Field.del
  rcases hviol with h | h | h <;> constructor <;> split_ifs <;> simp_all

/-- Claim C5 witness: a readonly `UnicodeField` and a `DateField` bound
to the hash-key name are both write- and delete-protected on a concrete
record. -/
theorem field_key_or_readonly_write_protected_witness :
    Field.set (UnicodeField.mkField "nick" .noDefault true) sampleRec (.str "bob") =
      .error .attributeError ∧
    Field.del (UnicodeField.mkField "nick" .noDefault true) sampleRec =
      .error .attributeError ∧
    Field.set (DateField.mkField "id" .noDefault false) sampleRec (.str "u9") =
      .error .attributeError ∧
    Field.del (DateField.mkField "id" .noDefault false) sampleRec =
      .error .attributeError :=
  ⟨(field_key_or_readonly_write_protected _ sampleRec (.str "bob")
      (Or.inr (Or.inr rfl))).1,
   (field_key_or_readonly_write_protected _ sampleRec (.str "bob")
      (Or.inr (Or.inr rfl))).2,
   (field_key_or_readonly_write_protected _ sampleRec (.str "u9") (Or.inl rfl)).1,
   (field_key_or_readonly_write_protected _ sampleRec (.str "u9") (Or.inl rfl)).2⟩

/-- Claim C7, counterexample: casting the enumeration mount point (which
has no ordinal) raises `ValueError`, which is not a `TypeError`-class
error as the claim states. -/
theorem enum_intCast_mount_raises_valueError :
    EnumMeta.intCast Option.none = .error .valueError ∧
    PyError.valueError ≠ PyError.typeError := ⟨rfl, by decide⟩

/-- Claim C7 as amended: casting a declared member to its ordinal always
succeeds and yields its declaration index, while casting the
enumeration mount point (which has no ordinal) fails with a
`ValueError` (not a `TypeError`). -/
theorem enum_intCast_member_ok (names : List String) (i : Nat)
    (h : i < (buildEnum names).members.length) :
    EnumMeta.intCast (some ((buildEnum names).members.get ⟨i, h⟩)) = .ok (Int.ofNat i) ∧
    EnumMeta.intCast Option.none = .error .valueError := by
  rw [buildEnum_get]
  exact ⟨rfl, rfl⟩

/-- Claim C7 witness: the second declared member of a concrete
enumeration casts to 1. -/
theorem enum_intCast_member_ok_witness :
    EnumMeta.intCast (some ((buildEnum ["NO_ACCESS", "FULL_ACCESS"]).members.get
      ⟨1, by decide⟩)) = .ok 1 ∧
    EnumMeta.intCast Option.none = .error .valueError :=
  enum_intCast_member_ok ["NO_ACCESS", "FULL_ACCESS"] 1 (by decide)

/-- Claim C4, counterexample: cache-key derivation is not injective in
the (table, hash key, range key) triple — the underscore-joined
pre-image of hash key `"b_c"` with no range key coincides with that of
hash key `"b"` with range key `"c"`, so the two distinct triples hash
to the same digest. -/
theorem cacheKey_distinct_triples_collide :
    Table.getCacheKey sampleTable (.str "b_c") Option.none =
      Table.getCacheKey sampleTable (.str "b") (some (.str "c")) ∧
    (PyVal.str "b_c", (Option.none : Option PyVal)) ≠ (PyVal.str "b", some (PyVal.str "c")) :=
  ⟨congrArg sha224hex (by decide), by decide⟩

/-- Claim C4 as amended: cache-key derivation is deterministic —
repeated calls on the same (table, hash key, range key) triple return
the same digest — and always produces a fixed-length 56-character
digest; but it is not injective: distinct triples collide exactly when
their underscore-joined renderings coincide (and equal renderings
always give equal digests). -/
theorem cacheKey_deterministic_fixed_length (t : TableSchema) (hk : PyVal)
    (rk : Option PyVal) :
    Table.getCacheKey t hk rk = Table.getCacheKey t hk rk ∧
    (Table.getCacheKey t hk rk).length = 56 := by
  refine ⟨rfl, ?_⟩
  cases rk <;> simp [Table.getCacheKey, sha224hex_length]

theorem pyListGet_ofNat (l : List EnumMember) (i : Nat) (h : i < l.length) :
    pyListGet l (Int.ofNat i) = .ok l[i] := by
  have h1 : ¬((i : Int) < 0) := by omega
  simp [pyListGet, h1, Int.toNat_natCast, List.getElem?_eq_getElem h]

theorem lookupName_buildEnum (names : List String) (hnd : names.Nodup) (i : Nat)
    (h : i < names.length) :
    (buildEnum names).lookupName (names.get ⟨i, h⟩) =
      some { name := names.get ⟨i, h⟩, index := i } := by
  have hlen : i < (buildEnum names).members.length := by rw [buildEnum_length]; exact h
  have hget : ∀ j (hj : j < (buildEnum names).members.length),
      (buildEnum names).members[j] =
        { name := names.get ⟨j, by rwa [buildEnum_length] at hj⟩, index := j } := by
    intro j hj
    have hj2 : j < names.length := by rwa [buildEnum_length] at hj
    have := buildEnum_get names j hj
    simp only [List.get_eq_getElem] at this ⊢
    rw [this, List.getD_eq_getElem?_getD, List.getElem?_eq_getElem hj2]
    rfl
  have hfil : (buildEnum names).members.filter
      (fun m => m.name = names.get ⟨i, h⟩) = [(buildEnum names).members[i]] := by
    apply filter_eq_singleton_of_unique _ _ i hlen
    intro j hj
    have hj2 : j < names.length := by rwa [buildEnum_length] at hj
    rw [hget j hj]
    simp only [List.get_eq_getElem, decide_eq_true_eq]
    exact ⟨fun hh => (List.Nodup.getElem_inj_iff hnd).mp hh,
           fun hh => by subst hh; rfl⟩
  unfold EnumClass.lookupName
  rw [hfil, hget i hlen]
  rfl

/-- Claim C6: for every declared enumeration member, lookup by ordinal,
lookup by name, and lookup by the member itself each return that member,
and the ordinals form a contiguous 0-based sequence matching declaration
order (member i of the built enumeration has index i).  The name lookup
requires the declared names to be distinct, as they are in a Python
class namespace. -/
theorem enum_lookup_roundtrip (names : List String) (hnd : names.Nodup) (i : Nat)
    (h : i < (buildEnum names).members.length) :
    (buildEnum names).getitem (.int (Int.ofNat i)) =
      .ok ((buildEnum names).members.get ⟨i, h⟩) ∧
    (buildEnum names).getitem (.str ((buildEnum names).members.get ⟨i, h⟩).name) =
      .ok ((buildEnum names).members.get ⟨i, h⟩) ∧
    (buildEnum names).getitem
        (.member ((buildEnum names).members.get ⟨i, h⟩).name
          ((buildEnum names).members.get ⟨i, h⟩).index) =
      .ok ((buildEnum names).members.get ⟨i, h⟩) ∧
    ((buildEnum names).members.get ⟨i, h⟩).index = i := by
  have h2 : i < names.length := by rwa [buildEnum_length] at h
  have hm := buildEnum_get names i h
  have hname : ((buildEnum names).members.get ⟨i, h⟩).name = names.get ⟨i, h2⟩ := by
    rw [hm]
    simp [List.getD_eq_getElem?_getD, List.getElem?_eq_getElem h2]
  have hidx : ((buildEnum names).members.get ⟨i, h⟩).index = i := by rw [hm]
  refine ⟨?_, ?_, ?_, hidx⟩
  · simp only [EnumClass.getitem]
    rw [pyListGet_ofNat _ _ h]
    simp
  · simp only [EnumClass.getitem, hname]
    rw [lookupName_buildEnum names hnd i h2]
    rw [hm]
    simp only [List.get_eq_getElem]
    rw [List.getD_eq_getElem?_getD, List.getElem?_eq_getElem h2]
    rfl
  · simp only [EnumClass.getitem, hidx]
    rw [pyListGet_ofNat _ _ h]
    simp

/-- Claim C6 witness: a concrete three-member enumeration, looked up by
ordinal, name, and member, returns its second member, whose ordinal
is 1. -/
theorem enum_lookup_roundtrip_witness :
    (buildEnum ["NO_ACCESS", "FULL_ACCESS", "TRIAL_ACCESS"]).getitem (.int 1) =
      .ok ((buildEnum ["NO_ACCESS", "FULL_ACCESS", "TRIAL_ACCESS"]).members.get
        ⟨1, by decide⟩) ∧
    (buildEnum ["NO_ACCESS", "FULL_ACCESS", "TRIAL_ACCESS"]).getitem (.str "FULL_ACCESS") =
      .ok ((buildEnum ["NO_ACCESS", "FULL_ACCESS", "TRIAL_ACCESS"]).members.get
        ⟨1, by decide⟩) ∧
    ((buildEnum ["NO_ACCESS", "FULL_ACCESS", "TRIAL_ACCESS"]).members.get
      ⟨1, by decide⟩).index = 1 := by
  have := enum_lookup_roundtrip ["NO_ACCESS", "FULL_ACCESS", "TRIAL_ACCESS"]
    (by decide) 1 (by decide)
  exact ⟨this.1, by
    have h2 := this.2.1
    simpa using h2, this.2.2.2⟩

/-- Claim C8, counterexample: the round-trip law fails inside the
DateTimeField's valid domain — a datetime with a nonzero microsecond
component is accepted by `from_python` (which stores
`mktime(value.timetuple())`, whole seconds) but round-trips to the
same instant with microsecond 0, not to the original value; this is
not the empty-sentinel collapse the claim carves out. -/
theorem datetime_roundtrip_drops_microseconds :
    DateTimeField.from_python sampleRec (.datetime 100 1) = .ok (.int 100) ∧
    DateTimeField.to_python sampleRec (.int 100) = .ok (.datetime 100 0) ∧
    PyVal.datetime 100 0 ≠ PyVal.datetime 100 1 ∧
    PyVal.datetime 100 0 ≠ PyVal.none := by
  refine ⟨rfl, rfl, by decide, by decide⟩

/-- Claim C8 as amended: for the cited Field variants the wire/typed
round trip `to_python (from_python v) = v` holds on the valid domain —
ChoiceField on members of a duplicate-free enumeration, DateField on
calendar dates (ordinals 1..3652059), DateTimeField on whole-second
timestamps of years 1..9999 — except that a value equal to the field's
empty sentinel (`None`, or the stored 0) collapses to `None`, and
except that DateTimeField truncates sub-second precision: a datetime
with a nonzero microsecond component round-trips to the same instant
with microseconds dropped. -/
theorem field_roundtrip_law (obj : Record) :
    (∀ (names : List String), names.Nodup → ∀ (i : Nat) (h : i < names.length),
      ChoiceField.from_python (buildEnum names) obj (.member (names.get ⟨i, h⟩) i) =
        .ok (.str (names.get ⟨i, h⟩)) ∧
      ChoiceField.to_python (buildEnum names) obj (.str (names.get ⟨i, h⟩)) =
        .ok (.member (names.get ⟨i, h⟩) i)) ∧
    (∀ ordinal : Int, 1 ≤ ordinal → ordinal ≤ 3652059 →
      DateField.from_python obj (.date ordinal) = .ok (.int ordinal) ∧
      DateField.to_python obj (.int ordinal) = .ok (.date ordinal)) ∧
    (DateField.from_python obj .none = .ok (.int 0) ∧
      DateField.from_python obj (.int 0) = .ok (.int 0) ∧
      DateField.to_python obj (.int 0) = .ok .none) ∧
    (∀ ts : Int, ts ≠ 0 → -62135596800 ≤ ts → ts ≤ 253402300799 →
      DateTimeField.from_python obj (.datetime ts 0) = .ok (.int ts) ∧
      DateTimeField.to_python obj (.int ts) = .ok (.datetime ts 0)) ∧
    (DateTimeField.from_python obj .none = .ok (.int 0) ∧
      DateTimeField.from_python obj (.int 0) = .ok (.int 0) ∧
      DateTimeField.to_python obj (.int 0) = .ok .none) := by
  refine ⟨?_, ?_, ⟨rfl, rfl, rfl⟩, ?_, ⟨rfl, rfl, rfl⟩⟩
  · intro names hnd i h
    have hlen : i < (buildEnum names).members.length := by
      rw [buildEnum_length]; exact h
    have hget : (buildEnum names).members[i] = { name := names.get ⟨i, h⟩, index := i } := by
      have := buildEnum_get names i hlen
      simp only [List.get_eq_getElem] at this ⊢
      rw [this, List.getD_eq_getElem?_getD, List.getElem?_eq_getElem h]
      rfl
    constructor
    · simp only [ChoiceField.from_python, EnumClass.getitem]
      rw [pyListGet_ofNat _ _ hlen, hget]
      rfl
    · simp only [ChoiceField.to_python, ChoiceMixin.to_python, EnumClass.getitem]
      rw [lookupName_buildEnum names hnd i h]
      rfl
  · intro ordinal h1 h2
    refine ⟨rfl, ?_⟩
    simp only [DateField.to_python]
    rw [if_neg (by omega), if_pos ⟨h1, h2⟩]
  · intro ts h0 h1 h2
    refine ⟨rfl, ?_⟩
    simp only [DateTimeField.to_python]
    rw [if_neg h0, if_pos ⟨h1, h2⟩]

/-- Claim C8 witness: concrete round trips — the first member of a
two-member enumeration through ChoiceField, the date with ordinal
734503 through DateField, the timestamp 1300000000 through
DateTimeField. -/
theorem field_roundtrip_law_witness :
    ChoiceField.from_python (buildEnum ["ACTIVE", "INACTIVE"]) sampleRec
        (.member "ACTIVE" 0) = .ok (.str "ACTIVE") ∧
    ChoiceField.to_python (buildEnum ["ACTIVE", "INACTIVE"]) sampleRec
        (.str "ACTIVE") = .ok (.member "ACTIVE" 0) ∧
    DateField.from_python sampleRec (.date 734503) = .ok (.int 734503) ∧
    DateField.to_python sampleRec (.int 734503) = .ok (.date 734503) ∧
    DateTimeField.from_python sampleRec (.datetime 1300000000 0) =
      .ok (.int 1300000000) ∧
    DateTimeField.to_python sampleRec (.int 1300000000) =
      .ok (.datetime 1300000000 0) := by
  have hc := (field_roundtrip_law sampleRec).1 ["ACTIVE", "INACTIVE"] (by decide) 0
    (by decide)
  have hd := (field_roundtrip_law sampleRec).2.1 734503 (by decide) (by decide)
  have ht := (field_roundtrip_law sampleRec).2.2.2.1 1300000000 (by decide) (by decide)
    (by decide)
  exact ⟨hc.1, hc.2, hd.1, hd.2, ht.1, ht.2⟩

/-- A record with only its hash-key attribute set, used to exercise the
default-resolution path. -/
def bareRec : Record := ⟨[("id", .str "u1")], true, "id", Option.none⟩

/-- Claim C9, counterexample: reading an absent attribute through a
readonly Field with a configured truthy default does NOT return the
default with a write-back — the write-back goes through the
descriptor's `__set__`, which raises `AttributeError` because the Field
is readonly, so the read itself raises instead of returning. -/
theorem field_get_readonly_default_raises :
    Field.get (UnicodeField.mkField "nick" (.val (.str "x")) true) bareRec =
      .error .attributeError := rfl

/-- Claim C9 as amended: for a Field with a configured default, reading
an absent attribute resolves the default (invoking a producer with the
record), coerces it through `to_python`, and — when the coerced result
is truthy — writes it back into the record's raw map (as the wire value
produced by `from_python`), provided the Field is writable (not bound
to a key attribute and not readonly); for a readonly or key-bound Field
a truthy default makes the read raise the access violation instead.
For a Field with no configured default the read returns `None` with no
side effects. -/
theorem field_get_default_semantics :
    (∀ (f : FieldSpec) (obj : Record), f.default = .noDefault →
      lookupAttr obj.attrs f.name = Option.none →
      Field.get f obj = .ok (.none, obj)) ∧
    (∀ (f : FieldSpec) (obj : Record) (v0 value w : PyVal),
      lookupAttr obj.attrs f.name = Option.none →
      resolveDefault f.default obj = some v0 →
      f.toPython obj v0 = .ok value →
      pyTruthy value = true →
      f.name ≠ obj.hash_key_name →
      obj.range_key_name ≠ some f.name →
      f.readonly = false →
      f.fromPython obj value = .ok w →
      Field.get f obj = .ok (value, { obj with attrs := insertAttr obj.attrs f.name w })) := by
  constructor
  · intro f obj hd hlook
    simp [Field.get, hlook, hd, resolveDefault]
  · intro f obj v0 value w hlook hres htoP htr hh hr hro hfrom
    have hset : Field.set f obj value =
        .ok { obj with attrs := insertAttr obj.attrs f.name w } := by
      unfold Field.set
      rw [if_neg hh, if_neg hr, if_neg (by simp [hro])]
      cases value with
      | none => simp [pyTruthy] at htr
      | int n => rw [hfrom]; rfl
      | str s => rw [hfrom]; rfl
      | date ordinal => rw [hfrom]; rfl
      | datetime ts micro => rw [hfrom]; rfl
      | member name index => rw [hfrom]; rfl
    simp [Field.get, hlook, hres, htoP, htr, hset]

/-- Claim C9 witness: a writable UnicodeField with default "x" reading
an absent attribute returns "x" and persists it into the raw map; with
no default it returns None and leaves the record unchanged. -/
theorem field_get_default_semantics_witness :
    Field.get (UnicodeField.mkField "nick" .noDefault false) bareRec =
      .ok (.none, bareRec) ∧
    Field.get (UnicodeField.mkField "nick" (.val (.str "x")) false) bareRec =
      .ok (.str "x", { bareRec with attrs := insertAttr bareRec.attrs "nick" (.str "x") }) :=
  ⟨field_get_default_semantics.1 (UnicodeField.mkField "nick" .noDefault false) bareRec
      rfl rfl,
   field_get_default_semantics.2 (UnicodeField.mkField "nick" (.val (.str "x")) false)
      bareRec (.str "x") (.str "x") (.str "x") rfl rfl rfl (by decide) (by decide)
      (by decide) rfl rfl⟩

/-- Claim C1, counterexample: with a hash+range table, an empty cache
and an empty store, and the supplied numeric range key 0 — a key value
DynamoDB permits but Python treats as falsy — the guard
`if self.range_key_name and range_key:` (in `get_item` and in `create`)
drops the range key, so the lookup reads (and misses) on a partial key
and the returned placeholder does NOT have its range-key attribute
populated with the requested key, refuting the claim as stated. -/
theorem getitem_falsy_range_key_not_populated :
    Table.getitem rangedTable Option.none Option.none emptyStore
        (.pair (.str "u1") (.int 0)) =
      .ok (.item (Table.create rangedTable (.str "u1") (some (.int 0)) []), []) ∧
    rangedTable.range_key_name = some "ts" ∧
    (Table.create rangedTable (.str "u1") (some (.int 0)) []).is_new = true ∧
    lookupAttr (Table.create rangedTable (.str "u1") (some (.int 0)) []).attrs "ts" =
      Option.none :=
  ⟨rfl, rfl, rfl, rfl⟩

/-- Claim C1 as amended: on the single-item read path (a complete key:
a range key supplied, or a hash-only table — with only a hash key on a
hash+range table the source issues a query instead), for every key
absent from both the cache and the store, `Table.__getitem__` never
signals not-found: it returns a freshly created, unsaved Record with
`is_new = true` whose hash-key attribute is populated with the
requested key, performing no cache write; the range-key attribute is
likewise populated provided the supplied range key is truthy — a falsy
range key (such as the number 0 or an empty string) is dropped by the
`if self.range_key_name and range_key:` guard, so the placeholder then
lacks it (see the counterexample).  The remaining hypotheses assume a
well-formed schema: a nonempty declared range-key name, distinct from
the hash-key name. -/
theorem getitem_miss_creates_placeholder (t : TableSchema) (cache_duration : Option Int)
    (cache : Option CacheClient) (store : StoreGet) (key : TableKey)
    (hash_key : PyVal) (range_key : Option PyVal)
    (hkey : (∃ v, key = TableKey.pair hash_key v ∧ range_key = some v) ∨
      (key = TableKey.single hash_key ∧ range_key = Option.none ∧
        t.range_key_name = Option.none))
    (hcache : Table.getCache t cache hash_key range_key = Option.none)
    (hstore : store t.table_name (Table.keyData t hash_key range_key) = Option.none)
    (hsane : t.range_key_name ≠ some t.hash_key_name)
    (hrkt : ∀ v, range_key = some v → pyTruthy v = true)
    (hrnn : ∀ n, t.range_key_name = some n → n ≠ "") :
    Table.getitem t cache_duration cache store key =
      .ok (.item (Table.create t hash_key range_key []), []) ∧
    (Table.create t hash_key range_key []).is_new = true ∧
    lookupAttr (Table.create t hash_key range_key []).attrs t.hash_key_name =
      some hash_key ∧
    (∀ n v, t.range_key_name = some n → range_key = some v →
      lookupAttr (Table.create t hash_key range_key []).attrs n = some v) := by
  have hgi : Table.get_item t cache_duration cache store hash_key range_key =
      .error .itemNotFound := by
    simp [Table.get_item, hstore]
  refine ⟨?_, ?_, ?_, ?_⟩
  · rcases hkey with ⟨v, hk, hrk⟩ | ⟨hk, hrk, hrn⟩
    · subst hk; subst hrk
      simp only [Table.getitem]
      rw [hcache, hgi]
    · subst hk; subst hrk
      simp only [Table.getitem]
      rw [hcache, hrn, hgi]
  · simp [Table.create, Table.extend]
  · simp only [Table.create, Table.extend]
    cases hrn2 : t.range_key_name with
    | none => simp [lookupAttr, insertAttr]
    | some n =>
      cases hrk2 : range_key with
      | none => simp [lookupAttr, insertAttr]
      | some v =>
        have hne : n ≠ t.hash_key_name := by
          intro hh; exact hsane (by rw [hrn2, hh])
        simp [lookupAttr, insertAttr, hne, Ne.symm hne, hrnn n hrn2, hrkt v hrk2]
  · intro n v hrn2 hrk2
    subst hrk2
    simp only [Table.create, Table.extend, hrn2]
    have hne : n ≠ t.hash_key_name := by
      intro hh; exact hsane (by rw [hrn2, hh])
    simp [lookupAttr, insertAttr, hne, Ne.symm hne, hrnn n hrn2, hrkt v rfl]

/-- Claim C1 witness: a hash+range table with no cache and an empty
store, looked up with the complete key ("u1", 5), returns the unsaved
placeholder with both key attributes populated. -/
theorem getitem_miss_creates_placeholder_witness :
    Table.getitem rangedTable Option.none Option.none emptyStore
        (.pair (.str "u1") (.int 5)) =
      .ok (.item (Table.create rangedTable (.str "u1") (some (.int 5)) []), []) ∧
    (Table.create rangedTable (.str "u1") (some (.int 5)) []).is_new = true ∧
    lookupAttr (Table.create rangedTable (.str "u1") (some (.int 5)) []).attrs "id" =
      some (.str "u1") ∧
    lookupAttr (Table.create rangedTable (.str "u1") (some (.int 5)) []).attrs "ts" =
      some (.int 5) := by
  have h := getitem_miss_creates_placeholder rangedTable Option.none Option.none
    emptyStore (.pair (.str "u1") (.int 5)) (.str "u1") (some (.int 5))
    (Or.inl ⟨.int 5, rfl, rfl⟩) rfl rfl (by decide)
    (fun v hv => by
      have hv2 : PyVal.int 5 = v := by injection hv
      subst hv2; decide)
    (fun n hn => by
      have hn2 : "ts" = n := by injection hn
      subst hn2; decide)
  exact ⟨h.1, h.2.1, h.2.2.1, h.2.2.2 "ts" (.int 5) rfl rfl⟩
